import Mathlib

/-!
Shallow embedding of the layer2-virtual-switch-cpp core: the Ethernet frame
codec (ethernet_frame.hpp / ethernet_frame.cpp), the endpoint type
(udp_socket.hpp), the MAC learning table (mac_table.cpp) and the VSwitch
per-frame dispatch algorithm (vswitch.cpp, VSwitch::process_frame), together
with proofs of the specification claims about them.

Bytes are modelled as natural numbers (C++ uint8_t values are < 256, which is
stated as an explicit hypothesis where it matters).  A std::vector<uint8_t>
is a List Nat.  The std::unordered_map of the learning table is an
association list with unique keys; its iteration order is one concrete order,
which is harmless because every claim about it is order-insensitive.
-/

namespace project

/-- Size of a MAC address in bytes (MAC_ADDRESS_SIZE in ethernet_frame.hpp). -/
def MAC_ADDRESS_SIZE : Nat := 6

/-- Minimum Ethernet frame size, header only (ETHERNET_HEADER_SIZE). -/
def ETHERNET_HEADER_SIZE : Nat := 14

/-- A MAC address: six octets (class MacAddress, ethernet_frame.hpp).
The C++ class stores std:array<uint8_t, 6>; here the six bytes are six
fields. -/
structure MacAddress where
  b0 : Nat
  b1 : Nat
  b2 : Nat
  b3 : Nat
  b4 : Nat
  b5 : Nat
deriving DecidableEq, Repr

namespace MacAddress

/-- The default-constructed, all-zero MAC address (MacAddress()). -/
def zero : MacAddress := ⟨0, 0, 0, 0, 0, 0⟩

/-- MacAddress::broadcast(): ff:ff:ff:ff:ff:ff. -/
def broadcast : MacAddress := ⟨0xff, 0xff, 0xff, 0xff, 0xff, 0xff⟩

/-- The raw bytes in order (MacAddress::bytes()). -/
def bytes (m : MacAddress) : List Nat := [m.b0, m.b1, m.b2, m.b3, m.b4, m.b5]

/-- MacAddress::is_broadcast(): all bytes are 0xff. -/
def is_broadcast (m : MacAddress) : Bool :=
  m.b0 == 0xff && m.b1 == 0xff && m.b2 == 0xff && m.b3 == 0xff &&
  m.b4 == 0xff && m.b5 == 0xff

/-- MacAddress::is_zero(): all bytes are 0x00. -/
def is_zero (m : MacAddress) : Bool :=
  m.b0 == 0 && m.b1 == 0 && m.b2 == 0 && m.b3 == 0 && m.b4 == 0 && m.b5 == 0

/-- Well-formedness of the model: every octet fits in a byte.  In the C++
source this holds by the type uint8_t. -/
def WellFormed (m : MacAddress) : Prop :=
  m.b0 < 256 ∧ m.b1 < 256 ∧ m.b2 < 256 ∧ m.b3 < 256 ∧ m.b4 < 256 ∧ m.b5 < 256

end MacAddress

/-- An Ethernet frame (class EthernetFrame): destination MAC, source MAC,
16-bit ethertype, payload bytes. -/
structure EthernetFrame where
  dst_mac : MacAddress
  src_mac : MacAddress
  ethertype : Nat
  payload : List Nat
deriving DecidableEq, Repr

namespace EthernetFrame

/-- The default-constructed frame: zero MACs, ethertype 0, empty payload. -/
def default : EthernetFrame :=
  { dst_mac := MacAddress.zero, src_mac := MacAddress.zero,
    ethertype := 0, payload := [] }

/-- EthernetFrame::parse(const uint8_t* data, size_t size).
If the input is shorter than ETHERNET_HEADER_SIZE the default (all-zero)
frame is returned; otherwise bytes 0-5 are the destination MAC, 6-11 the
source MAC, 12-13 the big-endian ethertype, and everything after byte 13 the
payload. -/
def parse (data : List Nat) : EthernetFrame :=
  if data.length < ETHERNET_HEADER_SIZE then
    default
  else
    { dst_mac := ⟨data.getD 0 0, data.getD 1 0, data.getD 2 0,
                  data.getD 3 0, data.getD 4 0, data.getD 5 0⟩
      src_mac := ⟨data.getD 6 0, data.getD 7 0, data.getD 8 0,
                  data.getD 9 0, data.getD 10 0, data.getD 11 0⟩
      ethertype := (data.getD 12 0 <<< 8) ||| data.getD 13 0
      payload := data.drop ETHERNET_HEADER_SIZE }

/-- EthernetFrame::serialize(): dst bytes, then src bytes, then the ethertype
as two big-endian bytes, then the payload. -/
def serialize (f : EthernetFrame) : List Nat :=
  f.dst_mac.bytes ++ f.src_mac.bytes ++
    [(f.ethertype >>> 8) &&& 0xff, f.ethertype &&& 0xff] ++ f.payload

/-- EthernetFrame::size(): total frame size, header plus payload. -/
def size (f : EthernetFrame) : Nat :=
  ETHERNET_HEADER_SIZE + f.payload.length

end EthernetFrame

/-- Reassembling a 16-bit value from the two big-endian bytes that
serialize emits gives the value back. -/
lemma be16_roundtrip (e : Nat) (h : e < 65536) :
    (((e >>> 8) &&& 0xff) <<< 8) ||| (e &&& 0xff) = e := by
  have h255 : (0xff : Nat) = 2 ^ 8 - 1 := by norm_num
  rw [h255, Nat.and_pow_two_sub_one_eq_mod, Nat.and_pow_two_sub_one_eq_mod,
    Nat.shiftRight_eq_div_pow, Nat.shiftLeft_eq]
  have hlt : e / 2 ^ 8 < 2 ^ 8 := by omega
  rw [Nat.mod_eq_of_lt hlt, Nat.mul_comm]
  rw [← Nat.mul_add_lt_is_or (Nat.mod_lt e (by norm_num)) (e / 2 ^ 8)]
  omega

/-- C1 helper and general fact: parsing an input shorter than 14 bytes yields
the default frame. -/
lemma parse_short (data : List Nat) (h : data.length < 14) :
    EthernetFrame.parse data = EthernetFrame.default := by
  simp [EthernetFrame.parse, ETHERNET_HEADER_SIZE, h]

/-- C7: for every frame with well-formed fields (the six bytes of each MAC
are bytes and the ethertype is 16-bit), parsing the serialization returns the
frame unchanged. -/
theorem parse_serialize_roundtrip (f : EthernetFrame)
    (hty : f.ethertype < 65536) :
    EthernetFrame.parse (EthernetFrame.serialize f) = f := by
  have hlen : (EthernetFrame.serialize f).length = 14 + f.payload.length := by
    simp [EthernetFrame.serialize, MacAddress.bytes]
    omega
  have hnotshort : ¬ (EthernetFrame.serialize f).length < ETHERNET_HEADER_SIZE := by
    rw [hlen]; simp [ETHERNET_HEADER_SIZE]
  rw [EthernetFrame.parse, if_neg hnotshort]
  simp only [EthernetFrame.serialize, MacAddress.bytes, List.cons_append,
    List.nil_append, List.getD_cons_zero, List.getD_cons_succ]
  rw [show (ETHERNET_HEADER_SIZE : Nat) = 14 from rfl]
  simp only [List.drop_succ_cons, List.drop_zero]
  rw [be16_roundtrip f.ethertype hty]

/-- C7 witness at the concrete frame of spec scenario S5. -/
theorem parse_serialize_roundtrip_witness :
    (0x0800 : Nat) < 65536 ∧
    EthernetFrame.parse
      (EthernetFrame.serialize
        { dst_mac := MacAddress.broadcast,
          src_mac := ⟨0x00, 0x11, 0x22, 0x33, 0x44, 0x55⟩,
          ethertype := 0x0800,
          payload := [0xde, 0xad, 0xbe, 0xef] }) =
      { dst_mac := MacAddress.broadcast,
        src_mac := ⟨0x00, 0x11, 0x22, 0x33, 0x44, 0x55⟩,
        ethertype := 0x0800,
        payload := [0xde, 0xad, 0xbe, 0xef] } :=
  ⟨by norm_num,
   parse_serialize_roundtrip
     { dst_mac := MacAddress.broadcast,
       src_mac := ⟨0x00, 0x11, 0x22, 0x33, 0x44, 0x55⟩,
       ethertype := 0x0800,
       payload := [0xde, 0xad, 0xbe, 0xef] } (by norm_num)⟩

namespace MacAddress

/-- Hex digits as accepted by std::stoi with base 16. -/
def isHexDigitChar (c : Char) : Bool :=
  (('0' ≤ c && c ≤ '9') || ('a' ≤ c && c ≤ 'f') || ('A' ≤ c && c ≤ 'F'))

/-- The numeric value of a hex digit. -/
def hexVal (c : Char) : Nat :=
  if '0' ≤ c && c ≤ '9' then c.toNat - '0'.toNat
  else if 'a' ≤ c && c ≤ 'f' then c.toNat - 'a'.toNat + 10
  else c.toNat - 'A'.toNat + 10

/-- isspace in the C locale: space, \t, \n, \v, \f, \r. -/
def isSpaceChar (c : Char) : Bool :=
  c == ' ' || (9 ≤ c.toNat && c.toNat ≤ 13)

/-- std::stoi(s, nullptr, 16) on a two-character string c0 c1: skip leading
whitespace, accept an optional sign, then parse as many hex digits as
possible (a bare "0x"/"0X" prefix parses as the digit 0); none models the
std::invalid_argument exception raised when no digit can be parsed. -/
def stoi_hex2 (c0 c1 : Char) : Option Int :=
  if isSpaceChar c0 then
    if isHexDigitChar c1 then some (hexVal c1 : Int) else none
  else if c0 == '+' then
    if isHexDigitChar c1 then some (hexVal c1 : Int) else none
  else if c0 == '-' then
    if isHexDigitChar c1 then some (-(hexVal c1 : Int)) else none
  else if isHexDigitChar c0 then
    if isHexDigitChar c1 then some ((16 * hexVal c0 + hexVal c1 : Nat) : Int)
    else some (hexVal c0 : Int)
  else none

/-- static_cast<uint8_t>(int): reduction modulo 256 (two's complement
wraparound for negative values). -/
def to_uint8 (v : Int) : Nat := (v % 256).toNat

/-- MacAddress::from_string on a character list (the string_view contents):
requires length 17, takes the character at index 2 as the delimiter, which
must be a colon or a dash, checks that every separator position holds the
delimiter, and parses each of the six two-character groups with
std::stoi(..., 16), casting each result to uint8_t.  Any failure returns the
zero MAC. -/
def from_chars (s : List Char) : MacAddress :=
  if s.length = 17 then
    let delimiter := s.getD 2 ' '
    if delimiter == ':' || delimiter == '-' then
      if s.getD 2 ' ' == delimiter && s.getD 5 ' ' == delimiter &&
         s.getD 8 ' ' == delimiter && s.getD 11 ' ' == delimiter &&
         s.getD 14 ' ' == delimiter then
        match stoi_hex2 (s.getD 0 ' ') (s.getD 1 ' '),
              stoi_hex2 (s.getD 3 ' ') (s.getD 4 ' '),
              stoi_hex2 (s.getD 6 ' ') (s.getD 7 ' '),
              stoi_hex2 (s.getD 9 ' ') (s.getD 10 ' '),
              stoi_hex2 (s.getD 12 ' ') (s.getD 13 ' '),
              stoi_hex2 (s.getD 15 ' ') (s.getD 16 ' ') with
        | some v0, some v1, some v2, some v3, some v4, some v5 =>
            ⟨to_uint8 v0, to_uint8 v1, to_uint8 v2,
             to_uint8 v3, to_uint8 v4, to_uint8 v5⟩
        | _, _, _, _, _, _ => zero
      else zero
    else zero
  else zero

/-- MacAddress::from_string(std::string_view). -/
def from_string (str : String) : MacAddress :=
  from_chars str.data

end MacAddress

/-- The well-formed MAC text of the claim (spec words): hh:hh:hh:hh:hh:hh or
hh-hh-hh-hh-hh-hh, i.e. length 17, one of the two separators used
consistently, and every group position holding a hex digit. -/
def WellFormedMacText (s : List Char) : Prop :=
  s.length = 17 ∧
  ∃ d, (d = ':' ∨ d = '-') ∧
    (∀ j ∈ [2, 5, 8, 11, 14], s.getD j ' ' = d) ∧
    (∀ i < 6, MacAddress.isHexDigitChar (s.getD (3 * i) ' ') = true ∧
      MacAddress.isHexDigitChar (s.getD (3 * i + 1) ' ') = true)

/-- C4 counterexample: the malformed string "-1:22:33:44:55:66" (its first
group contains the non-hex character dash) is mapped by
MacAddress::from_string to the non-zero MAC ff:22:33:44:55:66 — std::stoi
accepts the sign and the uint8_t cast wraps -1 to 0xff — contradicting the
claim that every malformed input yields the zero MAC. -/
theorem from_string_malformed_counterexample :
    ¬ WellFormedMacText ("-1:22:33:44:55:66".data) ∧
    MacAddress.from_string ("-1:22:33:44:55:66") =
      ⟨0xff, 0x22, 0x33, 0x44, 0x55, 0x66⟩ ∧
    MacAddress.from_string ("-1:22:33:44:55:66") ≠ MacAddress.zero := by
  refine ⟨?_, by decide, by decide⟩
  rintro ⟨hlen, d, hd, hsep, hhex⟩
  have h0 : MacAddress.isHexDigitChar
      (("-1:22:33:44:55:66".data).getD (3 * 0) ' ') = true := (hhex 0 (by norm_num)).1
  have : MacAddress.isHexDigitChar '-' = true := by
    rw [show ("-1:22:33:44:55:66".data).getD (3 * 0) ' ' = '-' from rfl] at h0
    exact h0
  exact absurd this (by decide)

/-- C4 (amended): from_string still returns the zero MAC on every input of
wrong length or wrong separator, and every string it maps to a non-zero MAC
has length 17, a consistent colon or dash separator in all separator
positions, and six groups each accepted by stoi base 16 — but such a group
need not be two hex digits: stoi also accepts a leading space or sign and
ignores trailing junk after one digit, so some strings containing non-hex
characters parse to a non-zero MAC. -/
theorem from_string_nonzero_inversion (s : List Char)
    (hnz : MacAddress.from_chars s ≠ MacAddress.zero) :
    s.length = 17 ∧
    (s.getD 2 ' ' = ':' ∨ s.getD 2 ' ' = '-') ∧
    (∀ j ∈ [2, 5, 8, 11, 14], s.getD j ' ' = s.getD 2 ' ') ∧
    (∀ i < 6, (MacAddress.stoi_hex2 (s.getD (3 * i) ' ')
      (s.getD (3 * i + 1) ' ')).isSome = true) := by
  unfold MacAddress.from_chars at hnz
  by_cases hlen : s.length = 17
  swap
  · simp [hlen] at hnz
  rw [if_pos hlen] at hnz
  by_cases hd : (s.getD 2 ' ' == ':' || s.getD 2 ' ' == '-') = true
  swap
  · simp only [hd, Bool.false_eq_true, if_false] at hnz
    exact absurd rfl hnz
  rw [if_pos hd] at hnz
  by_cases hsep : (s.getD 2 ' ' == s.getD 2 ' ' && s.getD 5 ' ' == s.getD 2 ' ' &&
      s.getD 8 ' ' == s.getD 2 ' ' && s.getD 11 ' ' == s.getD 2 ' ' &&
      s.getD 14 ' ' == s.getD 2 ' ') = true
  swap
  · rw [if_neg hsep] at hnz
    exact absurd rfl hnz
  rw [if_pos hsep] at hnz
  refine ⟨hlen, ?_, ?_, ?_⟩
  · rcases Bool.or_eq_true_iff.mp hd with h | h
    · exact Or.inl (by simpa using h)
    · exact Or.inr (by simpa using h)
  · simp only [Bool.and_eq_true, beq_iff_eq] at hsep
    intro j hj
    rcases (by simpa using hj : j = 2 ∨ j = 5 ∨ j = 8 ∨ j = 11 ∨ j = 14) with
      rfl | rfl | rfl | rfl | rfl
    · rfl
    · exact hsep.1.1.1.2
    · exact hsep.1.1.2
    · exact hsep.1.2
    · exact hsep.2
  · intro i hi
    rcases hg0 : MacAddress.stoi_hex2 (s.getD 0 ' ') (s.getD 1 ' ') with _ | v0 <;>
      rw [hg0] at hnz
    · exact absurd rfl hnz
    rcases hg1 : MacAddress.stoi_hex2 (s.getD 3 ' ') (s.getD 4 ' ') with _ | v1 <;>
      rw [hg1] at hnz
    · exact absurd rfl hnz
    rcases hg2 : MacAddress.stoi_hex2 (s.getD 6 ' ') (s.getD 7 ' ') with _ | v2 <;>
      rw [hg2] at hnz
    · exact absurd rfl hnz
    rcases hg3 : MacAddress.stoi_hex2 (s.getD 9 ' ') (s.getD 10 ' ') with _ | v3 <;>
      rw [hg3] at hnz
    · exact absurd rfl hnz
    rcases hg4 : MacAddress.stoi_hex2 (s.getD 12 ' ') (s.getD 13 ' ') with _ | v4 <;>
      rw [hg4] at hnz
    · exact absurd rfl hnz
    rcases hg5 : MacAddress.stoi_hex2 (s.getD 15 ' ') (s.getD 16 ' ') with _ | v5 <;>
      rw [hg5] at hnz
    · exact absurd rfl hnz
    interval_cases i
    · show (MacAddress.stoi_hex2 (s.getD 0 ' ') (s.getD 1 ' ')).isSome = true
      rw [hg0]
      rfl
    · show (MacAddress.stoi_hex2 (s.getD 3 ' ') (s.getD 4 ' ')).isSome = true
      rw [hg1]
      rfl
    · show (MacAddress.stoi_hex2 (s.getD 6 ' ') (s.getD 7 ' ')).isSome = true
      rw [hg2]
      rfl
    · show (MacAddress.stoi_hex2 (s.getD 9 ' ') (s.getD 10 ' ')).isSome = true
      rw [hg3]
      rfl
    · show (MacAddress.stoi_hex2 (s.getD 12 ' ') (s.getD 13 ' ')).isSome = true
      rw [hg4]
      rfl
    · show (MacAddress.stoi_hex2 (s.getD 15 ' ') (s.getD 16 ' ')).isSome = true
      rw [hg5]
      rfl

/-- C4 witness for the amended theorem at a concrete non-zero parse. -/
theorem from_string_nonzero_inversion_witness :
    MacAddress.from_chars ("00:11:22:33:44:55".data) ≠ MacAddress.zero ∧
    ("00:11:22:33:44:55".data).length = 17 := by
  have h : MacAddress.from_chars ("00:11:22:33:44:55".data) ≠ MacAddress.zero := by
    decide
  exact ⟨h, (from_string_nonzero_inversion _ h).1⟩

/-- A UDP endpoint (class Endpoint, udp_socket.hpp): an IPv4 address as text
plus a port.  The default constructor yields the invalid endpoint
(empty address, port 0). -/
structure Endpoint where
  address : String
  port : Nat
deriving DecidableEq, Repr

namespace Endpoint

/-- Endpoint::is_valid(): non-empty address and non-zero port. -/
def is_valid (e : Endpoint) : Bool :=
  !e.address.isEmpty && e.port != 0

end Endpoint

/-- The MAC learning table (class MacTable, mac_table.cpp): a mapping from
MacAddress to Endpoint, modelled as an association list.  The C++
std::unordered_map has unique keys; tables reachable through the operations
satisfy KeysNodup below. -/
abbrev MacTable := List (MacAddress × Endpoint)

namespace MacTable

/-- Unique keys: the invariant the std::unordered_map representation
guarantees. -/
def KeysNodup (t : MacTable) : Prop := (t.map Prod.fst).Nodup

/-- MacTable::lookup: the endpoint stored under the key, if any
(table_.find(mac)). -/
def lookup (t : MacTable) (mac : MacAddress) : Option Endpoint :=
  match t with
  | [] => none
  | p :: rest => if p.1 = mac then some p.2 else lookup rest mac

/-- MacTable::contains: table_.find(mac) != table_.end(). -/
def contains (t : MacTable) (mac : MacAddress) : Bool :=
  (lookup t mac).isSome

/-- The map update table_[mac] = endpoint: replace the value under an
existing key, otherwise add a new entry. -/
def store (t : MacTable) (mac : MacAddress) (endpoint : Endpoint) : MacTable :=
  match t with
  | [] => [(mac, endpoint)]
  | p :: rest =>
      if p.1 = mac then (mac, endpoint) :: rest else p :: store rest mac endpoint

/-- MacTable::insert: records whether the key was new
(table_.find(mac) == table_.end()), then does table_[mac] = endpoint.
Returns the is_new flag and the updated table. -/
def insert (t : MacTable) (mac : MacAddress) (endpoint : Endpoint) :
    Bool × MacTable :=
  (!contains t mac, store t mac endpoint)

/-- MacTable::get_all_endpoints_except: the endpoints of all entries whose
key differs from exclude_mac, in iteration order. -/
def get_all_endpoints_except (t : MacTable) (exclude_mac : MacAddress) :
    List Endpoint :=
  match t with
  | [] => []
  | (mac, endpoint) :: rest =>
      if mac ≠ exclude_mac then endpoint :: get_all_endpoints_except rest exclude_mac
      else get_all_endpoints_except rest exclude_mac

lemma lookup_store_self (t : MacTable) (mac : MacAddress) (endpoint : Endpoint) :
    lookup (store t mac endpoint) mac = some endpoint := by
  induction t with
  | nil => simp [store, lookup]
  | cons p rest ih =>
      by_cases h : p.1 = mac
      · simp [store, h, lookup]
      · simp [store, h, lookup, ih]

lemma contains_store_self (t : MacTable) (mac : MacAddress) (endpoint : Endpoint) :
    contains (store t mac endpoint) mac = true := by
  simp [contains, lookup_store_self]

lemma store_store_same (t : MacTable) (mac : MacAddress) (endpoint : Endpoint) :
    store (store t mac endpoint) mac endpoint = store t mac endpoint := by
  induction t with
  | nil => simp [store]
  | cons p rest ih =>
      by_cases h : p.1 = mac
      · simp [store, h]
      · simp [store, h, ih]

lemma contains_iff_mem_keys (t : MacTable) (mac : MacAddress) :
    contains t mac = true ↔ mac ∈ t.map Prod.fst := by
  induction t with
  | nil => simp [contains, lookup]
  | cons p rest ih =>
      by_cases h : p.1 = mac
      · simp [contains, lookup, h]
      · simpa [contains, lookup, h, Ne.symm h] using ih

lemma except_eq_values_of_not_contains (t : MacTable) (m : MacAddress)
    (h : contains t m = false) :
    get_all_endpoints_except t m = t.map Prod.snd := by
  induction t with
  | nil => simp [get_all_endpoints_except]
  | cons p rest ih =>
      have hp : ¬ p.1 = m := by
        intro he
        simp [contains, lookup, he] at h
      have hrest : contains rest m = false := by
        simpa [contains, lookup, hp] using h
      simp [get_all_endpoints_except, hp, ih hrest]

lemma length_except_of_contains (t : MacTable) (m : MacAddress)
    (hnd : KeysNodup t) (hc : contains t m = true) :
    (get_all_endpoints_except t m).length = t.length - 1 := by
  induction t with
  | nil => simp [contains, lookup] at hc
  | cons p rest ih =>
      have hnd' : KeysNodup rest := by
        simpa [KeysNodup] using (List.nodup_cons.mp hnd).2
      by_cases hp : p.1 = m
      · have hnc : contains rest m = false := by
          have hmem : p.1 ∉ rest.map Prod.fst := (List.nodup_cons.mp hnd).1
          rw [← hp] at *
          cases hcr : contains rest p.1 with
          | false => rfl
          | true => exact absurd ((contains_iff_mem_keys rest p.1).mp hcr) hmem
        simp [get_all_endpoints_except, hp,
          except_eq_values_of_not_contains rest m hnc]
      · have hcr : contains rest m = true := by
          simpa [contains, lookup, hp] using hc
        have hne : rest ≠ [] := by
          intro he
          rw [he] at hcr
          simp [contains, lookup] at hcr
        have hlen : 1 ≤ rest.length := by
          cases rest with
          | nil => exact absurd rfl hne
          | cons q qs => simp
        simp only [get_all_endpoints_except, if_pos hp, List.length_cons]
        rw [ih hnd' hcr]
        omega

lemma mem_except_iff (t : MacTable) (m : MacAddress) (e : Endpoint) :
    e ∈ get_all_endpoints_except t m ↔ ∃ p ∈ t, p.1 ≠ m ∧ p.2 = e := by
  induction t with
  | nil => simp [get_all_endpoints_except]
  | cons p rest ih =>
      by_cases hp : p.1 = m
      · simp [get_all_endpoints_except, hp, ih]
      · constructor
        · intro hmem
          rcases (by simpa [get_all_endpoints_except, hp] using hmem :
              e = p.2 ∨ e ∈ get_all_endpoints_except rest m) with he | hrest
          · exact ⟨p, by simp, hp, he.symm⟩
          · rcases ih.mp hrest with ⟨q, hq, hqm, hqe⟩
            exact ⟨q, by simp [hq], hqm, hqe⟩
        · rintro ⟨q, hq, hqm, hqe⟩
          rcases (by simpa using hq : q = p ∨ q ∈ rest) with rfl | hqr
          · simp [get_all_endpoints_except, hp, hqe]
          · have := ih.mpr ⟨q, hqr, hqm, hqe⟩
            simp [get_all_endpoints_except, hp, this]

lemma count_except (t : MacTable) (m : MacAddress) (e : Endpoint) :
    (get_all_endpoints_except t m).count e =
      t.countP (fun p => decide (p.1 ≠ m) && decide (p.2 = e)) := by
  induction t with
  | nil => simp [get_all_endpoints_except]
  | cons p rest ih =>
      by_cases hp : p.1 = m
      · simp [get_all_endpoints_except, hp, List.countP_cons, ih]
      · by_cases he : p.2 = e
        · simp [get_all_endpoints_except, hp, List.countP_cons, he,
            List.count_cons, ih]
        · simp [get_all_endpoints_except, hp, List.countP_cons, he,
            List.count_cons, ih]

end MacTable

/-- C2 (amended): for every table with unique keys that has m as a key,
get_all_endpoints_except(m) has length size - 1, contains the endpoint of
each entry keyed differently from m exactly once (counting multiplicity),
and omits the value stored under m whenever no other key maps to that same
endpoint. -/
theorem get_all_endpoints_except_spec (t : MacTable) (m : MacAddress)
    (hnd : MacTable.KeysNodup t) (hc : MacTable.contains t m = true) :
    (MacTable.get_all_endpoints_except t m).length = t.length - 1 ∧
    (∀ e : Endpoint, (MacTable.get_all_endpoints_except t m).count e =
      t.countP (fun p => decide (p.1 ≠ m) && decide (p.2 = e))) ∧
    (∀ ep : Endpoint, MacTable.lookup t m = some ep →
      (∀ p ∈ t, p.1 ≠ m → p.2 ≠ ep) →
      ep ∉ MacTable.get_all_endpoints_except t m) := by
  refine ⟨MacTable.length_except_of_contains t m hnd hc,
    fun e => MacTable.count_except t m e, ?_⟩
  intro ep _ hother hmem
  rcases (MacTable.mem_except_iff t m ep).mp hmem with ⟨p, hp, hpm, hpe⟩
  exact hother p hp hpm hpe

/-- C2 counterexample: in the table that maps two distinct MACs to the same
endpoint, the list returned by get_all_endpoints_except for the first key
does contain the endpoint stored under that key, contrary to the claim that
the returned list never contains T[m]. -/
theorem get_all_endpoints_except_counterexample :
    MacTable.lookup
        (MacTable.insert (MacTable.insert [] ⟨1, 0, 0, 0, 0, 0⟩ ⟨"10.0.0.9", 9999⟩).2
          ⟨2, 0, 0, 0, 0, 0⟩ ⟨"10.0.0.9", 9999⟩).2 ⟨1, 0, 0, 0, 0, 0⟩ =
      some ⟨"10.0.0.9", 9999⟩ ∧
    (⟨"10.0.0.9", 9999⟩ : Endpoint) ∈
      MacTable.get_all_endpoints_except
        (MacTable.insert (MacTable.insert [] ⟨1, 0, 0, 0, 0, 0⟩ ⟨"10.0.0.9", 9999⟩).2
          ⟨2, 0, 0, 0, 0, 0⟩ ⟨"10.0.0.9", 9999⟩).2 ⟨1, 0, 0, 0, 0, 0⟩ := by
  constructor
  · rfl
  · simp [MacTable.insert, MacTable.store, MacTable.contains, MacTable.lookup,
      MacTable.get_all_endpoints_except]

/-- C2 witness for the amended theorem, at a concrete two-entry table. -/
theorem get_all_endpoints_except_spec_witness :
    MacTable.KeysNodup
      [(⟨1, 0, 0, 0, 0, 0⟩, ⟨"10.0.0.1", 7000⟩), (⟨2, 0, 0, 0, 0, 0⟩, ⟨"10.0.0.2", 7001⟩)] ∧
    MacTable.contains
      [(⟨1, 0, 0, 0, 0, 0⟩, ⟨"10.0.0.1", 7000⟩), (⟨2, 0, 0, 0, 0, 0⟩, ⟨"10.0.0.2", 7001⟩)]
      ⟨1, 0, 0, 0, 0, 0⟩ = true ∧
    (MacTable.get_all_endpoints_except
      [(⟨1, 0, 0, 0, 0, 0⟩, ⟨"10.0.0.1", 7000⟩), (⟨2, 0, 0, 0, 0, 0⟩, ⟨"10.0.0.2", 7001⟩)]
      ⟨1, 0, 0, 0, 0, 0⟩).length =
      ([(⟨1, 0, 0, 0, 0, 0⟩, ⟨"10.0.0.1", 7000⟩),
        (⟨2, 0, 0, 0, 0, 0⟩, (⟨"10.0.0.2", 7001⟩ : Endpoint))] : MacTable).length - 1 := by
  have hnd : MacTable.KeysNodup
      [(⟨1, 0, 0, 0, 0, 0⟩, ⟨"10.0.0.1", 7000⟩), (⟨2, 0, 0, 0, 0, 0⟩, ⟨"10.0.0.2", 7001⟩)] := by
    simp [MacTable.KeysNodup]
  have hc : MacTable.contains
      [(⟨1, 0, 0, 0, 0, 0⟩, ⟨"10.0.0.1", 7000⟩), (⟨2, 0, 0, 0, 0, 0⟩, ⟨"10.0.0.2", 7001⟩)]
      ⟨1, 0, 0, 0, 0, 0⟩ = true := by rfl
  exact ⟨hnd, hc, (get_all_endpoints_except_spec _ _ hnd hc).1⟩

/-- C3 counterexample: MacTable::insert performs no validity check, so
inserting the invalid endpoint (empty address, port 0) into the empty table
succeeds and yields a reachable table state whose entry has an invalid
endpoint. -/
theorem insert_invalid_endpoint_counterexample :
    Endpoint.is_valid ⟨"", 0⟩ = false ∧
    (MacTable.insert [] ⟨1, 2, 3, 4, 5, 6⟩ ⟨"", 0⟩).1 = true ∧
    MacTable.lookup (MacTable.insert [] ⟨1, 2, 3, 4, 5, 6⟩ ⟨"", 0⟩).2
      ⟨1, 2, 3, 4, 5, 6⟩ = some ⟨"", 0⟩ := by
  refine ⟨rfl, rfl, rfl⟩

/-- C3 (amended): insert stores its endpoint unconditionally — there is no
rejection of invalid endpoints; after insert(m, e) the table maps m to e,
whether or not e is valid, so the validity of table entries relies entirely
on the callers (in practice the recv-from path). -/
theorem insert_stores_unconditionally (t : MacTable) (m : MacAddress)
    (e : Endpoint) :
    MacTable.lookup (MacTable.insert t m e).2 m = some e :=
  MacTable.lookup_store_self t m e

/-- C8: for every table state t, MAC m and endpoints e, e2: when m is not a
key, insert(m, e) returns true; after it, any insert(m, e2) returns false
whether or not e2 equals e; and inserting (m, e) twice leaves the table in
the same state as inserting it once. -/
theorem insert_learn_on_new_and_idempotent (t : MacTable) (m : MacAddress)
    (e e2 : Endpoint) (hfresh : MacTable.contains t m = false) :
    (MacTable.insert t m e).1 = true ∧
    (MacTable.insert (MacTable.insert t m e).2 m e2).1 = false ∧
    (MacTable.insert (MacTable.insert t m e).2 m e).2 =
      (MacTable.insert t m e).2 := by
  refine ⟨by simp [MacTable.insert, hfresh], ?_, ?_⟩
  · simp [MacTable.insert, MacTable.contains_store_self]
  · simp [MacTable.insert, MacTable.store_store_same]

/-- C8 witness: a concrete fresh insert followed by a second insert. -/
theorem insert_learn_on_new_and_idempotent_witness :
    MacTable.contains [] ⟨1, 2, 3, 4, 5, 6⟩ = false ∧
    (MacTable.insert [] ⟨1, 2, 3, 4, 5, 6⟩ ⟨"10.0.0.1", 7000⟩).1 = true ∧
    (MacTable.insert (MacTable.insert [] ⟨1, 2, 3, 4, 5, 6⟩ ⟨"10.0.0.1", 7000⟩).2
      ⟨1, 2, 3, 4, 5, 6⟩ ⟨"10.0.0.2", 7001⟩).1 = false ∧
    (MacTable.insert (MacTable.insert [] ⟨1, 2, 3, 4, 5, 6⟩ ⟨"10.0.0.1", 7000⟩).2
      ⟨1, 2, 3, 4, 5, 6⟩ ⟨"10.0.0.1", 7000⟩).2 =
      (MacTable.insert [] ⟨1, 2, 3, 4, 5, 6⟩ ⟨"10.0.0.1", 7000⟩).2 := by
  have h := insert_learn_on_new_and_idempotent [] ⟨1, 2, 3, 4, 5, 6⟩
    ⟨"10.0.0.1", 7000⟩ ⟨"10.0.0.2", 7001⟩ (by decide)
  exact ⟨by decide, h.1, h.2.1, h.2.2⟩

/-- VSwitchError (vswitch.hpp, as witnessed by to_string in vswitch.cpp). -/
inductive VSwitchError where
  | SocketCreationFailed
  | BindFailed
  | AlreadyRunning
  | NotRunning
deriving DecidableEq, Repr

/-- VPortError (vport.hpp). -/
inductive VPortError where
  | TapDeviceCreationFailed
  | SocketCreationFailed
  | InvalidVSwitchEndpoint
  | AlreadyRunning
  | NotRunning
deriving DecidableEq, Repr

/-- Outcome of one VSwitch::process_frame call: the learning table after the
learn step, the endpoints that send_to was invoked with, in order, and the
sent_count the broadcast loop accumulates for its log record. -/
structure ForwardResult where
  table : MacTable
  sends : List Endpoint
  sent_count : Nat
deriving DecidableEq, Repr

namespace VSwitch

/-- The broadcast fan-out loop of VSwitch::process_frame: send_to each
endpoint in turn — a failed send does not stop the loop — and count the
successful sends.  send_ok says which send_to calls succeed. -/
def broadcast_loop (send_ok : Endpoint → Bool) :
    List Endpoint → List Endpoint × Nat
  | [] => ([], 0)
  | endpoint :: rest =>
      let r := broadcast_loop send_ok rest
      (endpoint :: r.1, (if send_ok endpoint then 1 else 0) + r.2)

/-- Step 3 of VSwitch::process_frame, on the table t2 produced by the learn
step: unicast when lookup finds the destination, else flood when it is the
broadcast address, else drop. -/
def dispatch (t2 : MacTable) (frame : EthernetFrame)
    (send_ok : Endpoint → Bool) : ForwardResult :=
  match MacTable.lookup t2 frame.dst_mac with
  | some dst_endpoint =>
      { table := t2, sends := [dst_endpoint],
        sent_count := if send_ok dst_endpoint then 1 else 0 }
  | none =>
      if frame.dst_mac.is_broadcast then
        { table := t2,
          sends := (broadcast_loop send_ok
            (MacTable.get_all_endpoints_except t2 frame.src_mac)).1,
          sent_count := (broadcast_loop send_ok
            (MacTable.get_all_endpoints_except t2 frame.src_mac)).2 }
      else
        { table := t2, sends := [], sent_count := 0 }

/-- VSwitch::process_frame(frame_data, sender_endpoint): parse the frame,
learn src_mac -> sender_endpoint (step 2), then dispatch on dst_mac
(step 3).  send_ok models which send_to calls succeed (the code only uses
success for logging and for the broadcast sent_count). -/
def process_frame (t : MacTable) (frame_data : List Nat)
    (sender_endpoint : Endpoint) (send_ok : Endpoint → Bool) : ForwardResult :=
  dispatch
    (MacTable.insert t (EthernetFrame.parse frame_data).src_mac sender_endpoint).2
    (EthernetFrame.parse frame_data) send_ok

lemma dispatch_table (t2 : MacTable) (frame : EthernetFrame)
    (send_ok : Endpoint → Bool) : (dispatch t2 frame send_ok).table = t2 := by
  unfold dispatch
  cases MacTable.lookup t2 frame.dst_mac with
  | some ep => rfl
  | none =>
      by_cases h : frame.dst_mac.is_broadcast <;> simp [h]

lemma process_frame_table (t : MacTable) (data : List Nat) (sender : Endpoint)
    (send_ok : Endpoint → Bool) :
    (process_frame t data sender send_ok).table =
      (MacTable.insert t (EthernetFrame.parse data).src_mac sender).2 :=
  dispatch_table _ _ _

lemma broadcast_loop_sends (send_ok : Endpoint → Bool) (l : List Endpoint) :
    (broadcast_loop send_ok l).1 = l := by
  induction l with
  | nil => rfl
  | cons e rest ih => simp [broadcast_loop, ih]

lemma broadcast_loop_count (send_ok : Endpoint → Bool) (l : List Endpoint) :
    (broadcast_loop send_ok l).2 = l.countP send_ok := by
  induction l with
  | nil => rfl
  | cons e rest ih =>
      by_cases h : send_ok e <;>
        simp [broadcast_loop, ih, List.countP_cons, h, Nat.add_comm]

end VSwitch

/-- C1 counterexample: the empty datagram (length 0 < 14) received from a
concrete sender is parsed as the zero frame and zero-MAC -> sender is
learned, but the frame is then NOT discarded: the lookup of the zero
destination finds the entry the learn step just wrote, and one send_to back
to the sender is performed. -/
theorem process_frame_short_counterexample :
    (VSwitch.process_frame [] [] ⟨"127.0.0.1", 9000⟩ (fun _ => true)).sends =
      [⟨"127.0.0.1", 9000⟩] ∧
    (VSwitch.process_frame [] [] ⟨"127.0.0.1", 9000⟩ (fun _ => true)).sends ≠ [] := by
  refine ⟨rfl, ?_⟩
  intro h
  rw [show (VSwitch.process_frame [] [] ⟨"127.0.0.1", 9000⟩ (fun _ => true)).sends =
    [⟨"127.0.0.1", 9000⟩] from rfl] at h
  exact List.cons_ne_nil _ _ h

/-- C1 (amended): every datagram shorter than 14 bytes is parsed as the zero
frame and the mapping zero-MAC -> sender endpoint is learned; but because the
dispatch then looks up the zero destination MAC in the table that now
contains that very mapping, the datagram is unicast back to the sender:
exactly one send_to, to the sender endpoint, is performed, and the frame is
not discarded. -/
theorem process_frame_short (t : MacTable) (data : List Nat)
    (sender : Endpoint) (send_ok : Endpoint → Bool)
    (hshort : data.length < 14) :
    (VSwitch.process_frame t data sender send_ok).table =
      (MacTable.insert t MacAddress.zero sender).2 ∧
    MacTable.lookup (VSwitch.process_frame t data sender send_ok).table
      MacAddress.zero = some sender ∧
    (VSwitch.process_frame t data sender send_ok).sends = [sender] := by
  have hparse := parse_short data hshort
  have hlook : MacTable.lookup (MacTable.insert t MacAddress.zero sender).2
      MacAddress.zero = some sender := MacTable.lookup_store_self t _ _
  unfold VSwitch.process_frame VSwitch.dispatch
  rw [hparse]
  simp only [show EthernetFrame.default.src_mac = MacAddress.zero from rfl,
    show EthernetFrame.default.dst_mac = MacAddress.zero from rfl, hlook]
  simp [hlook]

/-- C1 witness: the empty datagram at a concrete table and sender. -/
theorem process_frame_short_witness :
    ([] : List Nat).length < 14 ∧
    (VSwitch.process_frame [] [] ⟨"127.0.0.1", 9000⟩ (fun _ => false)).sends =
      [⟨"127.0.0.1", 9000⟩] :=
  ⟨by decide,
   (process_frame_short [] [] ⟨"127.0.0.1", 9000⟩ (fun _ => false)
     (by decide)).2.2⟩

/-- C5: when the destination MAC of the received frame is (after the learn
step) a key of the learning table, the dispatch takes the unicast path and
sends the datagram only to the endpoint lookup returned — even when the
destination is the broadcast address — because lookup is checked before the
broadcast test. -/
theorem process_frame_unicast_wins_over_broadcast (t : MacTable)
    (data : List Nat) (sender : Endpoint) (send_ok : Endpoint → Bool)
    (ep : Endpoint)
    (hbc : (EthernetFrame.parse data).dst_mac.is_broadcast = true)
    (hlook : MacTable.lookup (VSwitch.process_frame t data sender send_ok).table
      (EthernetFrame.parse data).dst_mac = some ep) :
    (VSwitch.process_frame t data sender send_ok).sends = [ep] := by
  rw [VSwitch.process_frame_table] at hlook
  unfold VSwitch.process_frame VSwitch.dispatch
  simp only [hlook]

/-- C5 witness: a table already containing the broadcast MAC, and a frame
whose destination is the broadcast address. -/
theorem process_frame_unicast_wins_over_broadcast_witness :
    (EthernetFrame.parse
      [255, 255, 255, 255, 255, 255, 2, 0, 0, 0, 0, 1, 8, 0]).dst_mac.is_broadcast
      = true ∧
    MacTable.lookup
      (VSwitch.process_frame [(MacAddress.broadcast, ⟨"10.0.0.7", 7777⟩)]
        [255, 255, 255, 255, 255, 255, 2, 0, 0, 0, 0, 1, 8, 0]
        ⟨"10.0.0.1", 7001⟩ (fun _ => true)).table
      (EthernetFrame.parse
        [255, 255, 255, 255, 255, 255, 2, 0, 0, 0, 0, 1, 8, 0]).dst_mac =
      some ⟨"10.0.0.7", 7777⟩ ∧
    (VSwitch.process_frame [(MacAddress.broadcast, ⟨"10.0.0.7", 7777⟩)]
      [255, 255, 255, 255, 255, 255, 2, 0, 0, 0, 0, 1, 8, 0]
      ⟨"10.0.0.1", 7001⟩ (fun _ => true)).sends = [⟨"10.0.0.7", 7777⟩] := by
  refine ⟨rfl, rfl, ?_⟩
  exact process_frame_unicast_wins_over_broadcast _ _ _ _ _ rfl rfl

/-- C6: when the destination MAC is not in the table after the learn step and
is the broadcast address, send_to is invoked on exactly the endpoints
returned by get_all_endpoints_except(frame.src) — the endpoint of every
entry whose key differs from the source MAC — for every outcome function
send_ok, so an individual send failure never aborts the remaining sends, and
the logged count is the number of successful sends. -/
theorem process_frame_broadcast_floods (t : MacTable) (data : List Nat)
    (sender : Endpoint) (send_ok : Endpoint → Bool)
    (hlook : MacTable.lookup (VSwitch.process_frame t data sender send_ok).table
      (EthernetFrame.parse data).dst_mac = none)
    (hbc : (EthernetFrame.parse data).dst_mac.is_broadcast = true) :
    (VSwitch.process_frame t data sender send_ok).sends =
      MacTable.get_all_endpoints_except
        (VSwitch.process_frame t data sender send_ok).table
        (EthernetFrame.parse data).src_mac ∧
    (VSwitch.process_frame t data sender send_ok).sent_count =
      ((VSwitch.process_frame t data sender send_ok).sends).countP send_ok ∧
    (∀ p ∈ (VSwitch.process_frame t data sender send_ok).table,
      p.1 ≠ (EthernetFrame.parse data).src_mac →
      p.2 ∈ (VSwitch.process_frame t data sender send_ok).sends) := by
  rw [VSwitch.process_frame_table] at hlook
  have hres : VSwitch.process_frame t data sender send_ok =
      { table := (MacTable.insert t (EthernetFrame.parse data).src_mac sender).2,
        sends := MacTable.get_all_endpoints_except
          (MacTable.insert t (EthernetFrame.parse data).src_mac sender).2
          (EthernetFrame.parse data).src_mac,
        sent_count := (MacTable.get_all_endpoints_except
          (MacTable.insert t (EthernetFrame.parse data).src_mac sender).2
          (EthernetFrame.parse data).src_mac).countP send_ok } := by
    unfold VSwitch.process_frame VSwitch.dispatch
    simp only [hlook, hbc, if_true, VSwitch.broadcast_loop_sends,
      VSwitch.broadcast_loop_count]
  rw [hres]
  refine ⟨rfl, rfl, ?_⟩
  intro p hp hne
  exact (MacTable.mem_except_iff _ _ _).mpr ⟨p, hp, hne, rfl⟩

/-- C6 witness: two learned entries, a broadcast frame from a third device;
one of the two send_to calls fails and the other still happens. -/
theorem process_frame_broadcast_floods_witness :
    MacTable.lookup
      (VSwitch.process_frame
        [(⟨0, 0, 0, 0, 0, 1⟩, ⟨"10.0.0.1", 7001⟩), (⟨0, 0, 0, 0, 0, 2⟩, ⟨"10.0.0.2", 7002⟩)]
        [255, 255, 255, 255, 255, 255, 0, 0, 0, 0, 0, 3, 8, 6]
        ⟨"10.0.0.3", 7003⟩ (fun e => e.port == 7002)).table
      (EthernetFrame.parse
        [255, 255, 255, 255, 255, 255, 0, 0, 0, 0, 0, 3, 8, 6]).dst_mac = none ∧
    (VSwitch.process_frame
      [(⟨0, 0, 0, 0, 0, 1⟩, ⟨"10.0.0.1", 7001⟩), (⟨0, 0, 0, 0, 0, 2⟩, ⟨"10.0.0.2", 7002⟩)]
      [255, 255, 255, 255, 255, 255, 0, 0, 0, 0, 0, 3, 8, 6]
      ⟨"10.0.0.3", 7003⟩ (fun e => e.port == 7002)).sends =
      [⟨"10.0.0.1", 7001⟩, ⟨"10.0.0.2", 7002⟩] ∧
    (VSwitch.process_frame
      [(⟨0, 0, 0, 0, 0, 1⟩, ⟨"10.0.0.1", 7001⟩), (⟨0, 0, 0, 0, 0, 2⟩, ⟨"10.0.0.2", 7002⟩)]
      [255, 255, 255, 255, 255, 255, 0, 0, 0, 0, 0, 3, 8, 6]
      ⟨"10.0.0.3", 7003⟩ (fun e => e.port == 7002)).sent_count = 1 := by
  have h := process_frame_broadcast_floods
    [(⟨0, 0, 0, 0, 0, 1⟩, ⟨"10.0.0.1", 7001⟩), (⟨0, 0, 0, 0, 0, 2⟩, ⟨"10.0.0.2", 7002⟩)]
    [255, 255, 255, 255, 255, 255, 0, 0, 0, 0, 0, 3, 8, 6]
    ⟨"10.0.0.3", 7003⟩ (fun e => e.port == 7002) rfl rfl
  refine ⟨rfl, ?_, ?_⟩
  · rw [h.1]; rfl
  · rw [h.2.1, h.1]; rfl

namespace VSwitch

/-- VSwitch::stop() (vswitch.cpp): if the switch is not running it returns
immediately; otherwise it clears the running flag.  The C++ function returns
void, so its result carries no error value in either case; the model returns
the new running flag together with the (absent) typed error. -/
def stop (running : Bool) : Bool × Option VSwitchError :=
  if !running then (running, none) else (false, none)

/-- The guard at the top of VSwitch::start(): AlreadyRunning when the switch
is already running, otherwise no error. -/
def start_guard_result (running : Bool) : Option VSwitchError :=
  if running then some VSwitchError.AlreadyRunning else none

end VSwitch

namespace VPort

/-- VPort::stop() (vport.cpp): same shape as VSwitch::stop — a void function
that returns immediately when not running and otherwise clears the flag;
no typed error in either case. -/
def stop (running : Bool) : Bool × Option VPortError :=
  if !running then (running, none) else (false, none)

/-- The guard at the top of VPort::start(). -/
def start_guard_result (running : Bool) : Option VPortError :=
  if running then some VPortError.AlreadyRunning else none

end VPort

/-- C9 counterexample: calling stop() on a Switch or Port that is not
running does not produce the typed NotRunning error — stop is void and the
not-running case silently returns. -/
theorem stop_not_running_counterexample :
    (VSwitch.stop false).2 ≠ some VSwitchError.NotRunning ∧
    (VPort.stop false).2 ≠ some VPortError.NotRunning := by
  refine ⟨by simp [VSwitch.stop], by simp [VPort.stop]⟩

/-- C9 (amended): stop() on a Switch or Port that is not running is a silent
no-op: it returns no error (stop is void and idempotent) and leaves the
running flag false; only the start path reports misuse, returning the typed
AlreadyRunning error when invoked while running. -/
theorem stop_silent_noop (running : Bool) :
    VSwitch.stop running = (false, none) ∧
    VPort.stop running = (false, none) ∧
    VSwitch.start_guard_result true = some VSwitchError.AlreadyRunning ∧
    VPort.start_guard_result true = some VPortError.AlreadyRunning := by
  cases running <;> simp [VSwitch.stop, VPort.stop,
    VSwitch.start_guard_result, VPort.start_guard_result]

/-- C10: every parsed frame, including the zero frame obtained from inputs
shorter than 14 bytes, has size() at least 14, because size() is defined as
the 14-byte header length plus the payload length; so the validity check
frame.size() >= 14 holds for every parsed frame and cannot distinguish valid
from truncated input. -/
theorem parse_size_ge_header (data : List Nat) :
    14 ≤ (EthernetFrame.parse data).size := by
  unfold EthernetFrame.size ETHERNET_HEADER_SIZE
  omega

end project
